import Mathlib

/-!
Shallow embedding of the shift-aware due-date scheduler implemented in
`src/TPM_System_Source/src/app.py` of the TPM_System repository, together
with proofs about its behaviour.

Instants are modelled as integers counting microseconds since an epoch that
falls on a Monday at 00:00:00, matching Python `datetime` arithmetic
(microsecond precision, `weekday()` with Monday = 0).  In Lean, `/` and `%`
on `Int` are floor division and floor modulus for positive divisors, exactly
the semantics of Python `//` and `%`, so Python weekday/day arithmetic
translates literally.  Strings are processed on their character lists so
that all definitions evaluate inside the kernel.
-/

def usPerMin : Int := 60000000

def usPerHour : Int := 3600000000

def usPerDay : Int := 86400000000

/-- Python `dt.weekday()` (Monday = 0). -/
def weekday (t : Int) : Nat := ((t / usPerDay) % 7).toNat

/-- Python `dt.date()`, as a day index since the epoch Monday. -/
def dateOf (t : Int) : Int := t / usPerDay

/-- Python `dt.time()`, as microseconds since midnight. -/
def timeOfDay (t : Int) : Int := t % usPerDay

/-- Python `dt.replace(hour=h, minute=m, second=0, microsecond=0)` where the
new time-of-day is `m` whole minutes since midnight. -/
def replaceTime (t : Int) (m : Nat) : Int :=
  t / usPerDay * usPerDay + (m : Int) * usPerMin

/-- Python `dt + timedelta(days=n)`. -/
def addDays (t : Int) (n : Int) : Int := t + n * usPerDay

/-- Python `str.split(sep)` for a one-character separator, on character
lists; always returns at least one (possibly empty) piece. -/
def splitOnChar (sep : Char) : List Char → List (List Char)
  | [] => [[]]
  | c :: cs =>
    if c = sep then [] :: splitOnChar sep cs
    else
      match splitOnChar sep cs with
      | [] => [[c]]
      | h :: t => (c :: h) :: t

/-- The module constant `WEEK_IDX` of app.py line 89, mapping weekday
abbreviations to indices 0..6; a missing key is `none` (Python raises
`KeyError`). -/
def WEEK_IDX (d : List Char) : Option Nat :=
  if d = "Mon".data then some 0
  else if d = "Tue".data then some 1
  else if d = "Wed".data then some 2
  else if d = "Thu".data then some 3
  else if d = "Fri".data then some 4
  else if d = "Sat".data then some 5
  else if d = "Sun".data then some 6
  else none

/-- `[WEEK_IDX[d] for d in tokens]` with `KeyError` propagation. -/
def weekIdxList : List (List Char) → Option (List Nat)
  | [] => some []
  | d :: rest =>
    match WEEK_IDX d, weekIdxList rest with
    | some i, some l => some (i :: l)
    | _, _ => none

/-- `[WEEK_IDX[d] for d in active_days.split(',')]` (app.py lines 285, 428). -/
def parseActiveDays (s : String) : Option (List Nat) :=
  weekIdxList (splitOnChar ',' s.data)

/-- One numeric field of the `strptime` hour-minute format: one or two
characters, all digits, value at most `maxv`. -/
def parseTimeField (maxv : Nat) (l : List Char) : Option Nat :=
  if l.length = 0 ∨ 2 < l.length ∨ ¬(l.all Char.isDigit) then none
  else
    let v := l.foldl (fun a c => a * 10 + (c.toNat - 48)) 0
    if v ≤ maxv then some v else none

/-- Python `datetime.strptime(s, hour-minute-format).time()` (app.py lines
288-289, 429-430), returned as minutes since midnight: the string must be
`H:M` with a 1-2 digit hour 0-23 and a 1-2 digit minute 0-59; anything else
is `none` (a `ValueError` in Python). -/
def parseHM (s : String) : Option Nat :=
  match splitOnChar ':' s.data with
  | [h, m] =>
    match parseTimeField 23 h, parseTimeField 59 m with
    | some hv, some mv => some (hv * 60 + mv)
    | _, _ => none
  | _ => none

/-- One row of the `shift_config` table, restricted to the columns the
scheduler reads.  A database is a list of rows kept in `display_order`. -/
structure ShiftRow where
  shift_name : String
  start_time : String
  end_time : String
  active_days : String
  active : Bool
deriving DecidableEq

/-- The query `SELECT * FROM shift_config WHERE shift_name = ? AND active = 1`
with `fetchone()` (app.py lines 277-282, 417-422). -/
def lookupShift (db : List ShiftRow) (name : String) : Option ShiftRow :=
  db.find? (fun r => r.shift_name == name && r.active)

/-- The `last_completed` argument as the scheduler observes it: absent
(falsy), present but failing both `strptime` timestamp formats, or present
and parsing to instant `t`.  The calendar-string parser itself is not
re-implemented; this datatype records its outcome, which is all the
scheduler ever inspects (app.py lines 263-272, 389-395). -/
inductive LastCompleted where
  | absent
  | unparseable
  | parsed (t : Int)
deriving DecidableEq

/-- Python truthiness of the `last_completed` argument. -/
def LastCompleted.truthy : LastCompleted → Bool
  | .absent => false
  | _ => true

/-- App.py lines 263-272: the reference instant is the parsed completion
time when it parses, otherwise the evaluation-time `now`. -/
def referenceTime (now : Int) : LastCompleted → Int
  | .parsed t => t
  | _ => now

/-- Python truthiness of an optional string argument. -/
def truthyStr : Option String → Bool
  | none => false
  | some s => !(s == "")

/-- Python `interval_days or 1` (app.py line 378). -/
def orOne : Option Int → Int
  | none => 1
  | some k => if k = 0 then 1 else k

/-- The shift lookup shared by `calculate_next_due` and
`is_completed_in_current_shift_period`: the SQL query above, guarded by
`if assigned_shift:` (Python truthiness). -/
def shiftRowFor (db : List ShiftRow) (assigned : Option String) : Option ShiftRow :=
  match assigned with
  | some s => if s == "" then none else lookupShift db s
  | none => none

/-- The shift parameters `calculate_next_due` works with after lines
274-293. -/
structure ResolvedShift where
  shift_days : List Nat
  first_day : Nat
  last_day : Nat
  start_min : Nat
  end_min : Nat
deriving DecidableEq

/-- App.py lines 274-293: resolve the assigned shift to its weekday list,
min/max weekday and start/end times; no matching active row gives the
virtual all-weekday shift with a zero-length day window.  A row whose
stored strings fail to parse raises in Python (uncaught `KeyError` or
`ValueError`), modelled as `Except.error`. -/
def resolveShift (db : List ShiftRow) (assigned : Option String) :
    Except Unit ResolvedShift :=
  match shiftRowFor db assigned with
  | none => .ok ⟨[0, 1, 2, 3, 4, 5, 6], 0, 6, 0, 0⟩
  | some r =>
    match parseActiveDays r.active_days with
    | none => .error ()
    | some days =>
      match days.min?, days.max?, parseHM r.start_time, parseHM r.end_time with
      | some f, some l, some s, some e => .ok ⟨days, f, l, s, e⟩
      | _, _, _, _ => .error ()

/-- One step of the `for i in range(1, 8)` scan (app.py lines 300-308 and
337-344): if weekday `(ref_day_idx + i) % 7` is a shift day, the candidate
is `ref + i` days at time-of-day `m`, returned only when after `ref`. -/
def scanStep (ref : Int) (shift_days : List Nat) (m : Nat) (i : Nat) : Option Int :=
  if shift_days.contains ((weekday ref + i) % 7) then
    let candidate := replaceTime (addDays ref (i : Int)) m
    if ref < candidate then some candidate else none
  else none

/-- The 7-day scan: the first offset in 1..7 that yields a candidate. -/
def nextDueScan (ref : Int) (shift_days : List Nat) (m : Nat) : Option Int :=
  [1, 2, 3, 4, 5, 6, 7].findSome? (scanStep ref shift_days m)

/-- App.py lines 298-316: the START OF SHIFT DAILY branch. -/
def start_shift_daily_due (ref : Int) (shift_days : List Nat) (first_day : Nat)
    (start_min : Nat) : Int :=
  match nextDueScan ref shift_days start_min with
  | some c => c
  | none =>
    let d := ((first_day : Int) - (weekday ref : Int)) % 7
    let d := if d = 0 then 7 else d
    replaceTime (addDays ref d) start_min

/-- App.py lines 319-332: the START OF SHIFT WEEKLY branch. -/
def start_shift_weekly_due (ref : Int) (first_day : Nat) (start_min : Nat) : Int :=
  let days_until_first := ((first_day : Int) - (weekday ref : Int)) % 7
  let candidate := replaceTime (addDays ref days_until_first) start_min
  if candidate ≤ ref then candidate + 7 * usPerDay else candidate

/-- App.py lines 335-352: the END OF SHIFT DAILY branch; the fallback
indexes `shift_days[0]`, an uncaught `IndexError` on an empty list. -/
def end_shift_daily_due (ref : Int) (shift_days : List Nat) (end_min : Nat) :
    Except Unit Int :=
  match nextDueScan ref shift_days end_min with
  | some c => .ok c
  | none =>
    match shift_days with
    | [] => .error ()
    | d0 :: _ =>
      let d := ((d0 : Int) - (weekday ref : Int)) % 7
      let d := if d = 0 then 7 else d
      .ok (replaceTime (addDays ref d) end_min)

/-- App.py lines 355-367: the END OF SHIFT WEEKLY branch. -/
def end_shift_weekly_due (ref : Int) (last_day : Nat) (end_min : Nat) : Int :=
  let days_until_last := ((last_day : Int) - (weekday ref : Int)) % 7
  let candidate := replaceTime (addDays ref days_until_last) end_min
  if candidate ≤ ref then candidate + 7 * usPerDay else candidate

/-- App.py lines 259-380: `calculate_next_due`.  `db` is the `shift_config`
table in display order, `now` the evaluation instant. -/
def calculate_next_due (db : List ShiftRow) (now : Int)
    (last_completed : LastCompleted) (interval_days : Option Int)
    (interval_type : String) (assigned_shift : Option String) : Except Unit Int :=
  let reference_time := referenceTime now last_completed
  match resolveShift db assigned_shift with
  | .error e => .error e
  | .ok sh =>
    if interval_type = "start_shift_daily" then
      .ok (start_shift_daily_due reference_time sh.shift_days sh.first_day sh.start_min)
    else if interval_type = "start_shift_weekly" then
      .ok (start_shift_weekly_due reference_time sh.first_day sh.start_min)
    else if interval_type = "end_shift_daily" then
      end_shift_daily_due reference_time sh.shift_days sh.end_min
    else if interval_type = "end_shift_weekly" then
      .ok (end_shift_weekly_due reference_time sh.last_day sh.end_min)
    else
      match last_completed with
      | .absent => .ok now
      | .unparseable => .ok (now + orOne interval_days * usPerDay)
      | .parsed t => .ok (t + orOne interval_days * usPerDay)

/-- App.py lines 445-465: the inner helper of `is_same_shift_occurrence`;
`none` is Python `None` ("no occurrence anchor date"). -/
def get_shift_date_for_time (shift_days : List Nat) (start_min end_min : Nat)
    (dt : Int) : Option Int :=
  if shift_days.contains (weekday dt) then
    if end_min < start_min then
      if (start_min : Int) * usPerMin ≤ timeOfDay dt then some (dateOf dt)
      else some (dateOf (dt - usPerDay))
    else
      if (start_min : Int) * usPerMin ≤ timeOfDay dt ∧
          timeOfDay dt < (end_min : Int) * usPerMin then some (dateOf dt)
      else none
  else none

/-- App.py lines 442-472: `is_same_shift_occurrence`. -/
def is_same_shift_occurrence (completion_time current_time : Int)
    (shift_days : List Nat) (start_min end_min : Nat) : Bool :=
  match get_shift_date_for_time shift_days start_min end_min completion_time,
        get_shift_date_for_time shift_days start_min end_min current_time with
  | some a, some b => a == b
  | _, _ => false

/-- App.py lines 477-491: the inner helper of `is_same_shift_week`;
`min(shift_days)` on an empty list is an uncaught `ValueError`, modelled as
`Except.error`. -/
def get_shift_week_start (shift_days : List Nat) (start_min end_min : Nat)
    (dt : Int) : Except Unit Int :=
  match shift_days.min? with
  | none => .error ()
  | some first_shift_day =>
    let days_since_first := ((weekday dt : Int) - (first_shift_day : Int)) % 7
    let week_start := dt - days_since_first * usPerDay
    let week_start :=
      if weekday dt = first_shift_day ∧ end_min < start_min ∧
          timeOfDay dt < (start_min : Int) * usPerMin then
        week_start - 7 * usPerDay
      else week_start
    .ok (dateOf week_start)

/-- App.py lines 474-496: `is_same_shift_week`. -/
def is_same_shift_week (completion_time current_time : Int)
    (shift_days : List Nat) (start_min end_min : Nat) : Except Unit Bool := do
  let a ← get_shift_week_start shift_days start_min end_min completion_time
  let b ← get_shift_week_start shift_days start_min end_min current_time
  pure (a == b)

/-- Does `hay` start with `needle`? -/
def startsWithChars : List Char → List Char → Bool
  | [], _ => true
  | _ :: _, [] => false
  | a :: as, b :: bs => a == b && startsWithChars as bs

/-- Python substring membership `needle in hay` on character lists. -/
def containsSub (needle : List Char) : List Char → Bool
  | [] => needle.isEmpty
  | c :: t => startsWithChars needle (c :: t) || containsSub needle t

/-- Python substring membership `needle in hay` for strings (the string
dispatch of app.py lines 433-437). -/
def strContains (hay needle : String) : Bool := containsSub needle.data hay.data

/-- App.py lines 410-440: `is_completed_in_current_shift_period`. -/
def is_completed_in_current_shift_period (db : List ShiftRow) (now : Int)
    (completion_time : Int) (interval_type : String)
    (assigned_shift : Option String) : Except Unit Bool :=
  match shiftRowFor db assigned_shift with
  | none => .ok (dateOf completion_time == dateOf now)
  | some r =>
    match parseActiveDays r.active_days, parseHM r.start_time, parseHM r.end_time with
    | some days, some s, some e =>
      if strContains interval_type ("daily") then
        .ok (is_same_shift_occurrence completion_time now days s e)
      else if strContains interval_type ("weekly") then
        is_same_shift_week completion_time now days s e
      else .ok false
    | _, _, _ => .error ()

/-- App.py lines 402-408: the standard status comparison of
`get_task_status`.  `(next_due - now).days` is Python floor division of the
difference by one day. -/
def standard_status (now next_due : Int) : String :=
  if next_due < now then ("overdue")
  else if (next_due - now) / usPerDay < 1 then ("due")
  else ("upcoming")

/-- App.py lines 383-408: `get_task_status`. -/
def get_task_status (db : List ShiftRow) (now : Int) (next_due : Int)
    (last_completed : LastCompleted) (interval_type : Option String)
    (assigned_shift : Option String) : Except Unit String :=
  if last_completed.truthy && truthyStr interval_type && truthyStr assigned_shift then
    match last_completed, interval_type with
    | .parsed t, some it =>
      match is_completed_in_current_shift_period db now t it assigned_shift with
      | .error e => .error e
      | .ok true => .ok ("completed")
      | .ok false => .ok (standard_status now next_due)
    | _, _ => .ok (standard_status now next_due)
  else .ok (standard_status now next_due)

/-- `now.strftime` day abbreviation for weekday index `w` (app.py line
1003). -/
def dayAbbr (w : Nat) : String :=
  match w with
  | 0 => "Mon"
  | 1 => "Tue"
  | 2 => "Wed"
  | 3 => "Thu"
  | 4 => "Fri"
  | 5 => "Sat"
  | _ => "Sun"

/-- Nonempty all-digit character list to its decimal value. -/
def digitsVal (l : List Char) : Option Nat :=
  if l.isEmpty ∨ ¬(l.all Char.isDigit) then none
  else some (l.foldl (fun a c => a * 10 + (c.toNat - 48)) 0)

/-- Python `int(s)` on a character list: optional surrounding whitespace,
optional sign, decimal digits (exotic forms such as digit-group
underscores are not modelled). -/
def pyIntChars (s : List Char) : Option Int :=
  let t := ((s.dropWhile Char.isWhitespace).reverse.dropWhile Char.isWhitespace).reverse
  match t with
  | [] => none
  | c :: rest =>
    if c = '+' then (digitsVal rest).map (fun n => (n : Int))
    else if c = '-' then (digitsVal rest).map (fun n => -(n : Int))
    else (digitsVal t).map (fun n => (n : Int))

/-- App.py lines 1029-1036: parse a shift time string in the active-shift
endpoint via `split(':')` and `int(...)` on the first two pieces (extra
pieces are ignored; a missing or non-numeric piece is the caught exception,
so the row is skipped). -/
def parseShiftMinutes (s : String) : Option Int :=
  match splitOnChar ':' s.data with
  | p0 :: p1 :: _ =>
    match pyIntChars p0, pyIntChars p1 with
    | some a, some b => some (a * 60 + b)
    | _, _ => none
  | _ => none

/-- The loop of app.py lines 1024-1048: the first row in display order whose
active days contain the current day abbreviation, whose times parse, and
whose window contains the current minutes. -/
def find_active_shift (cur : Int) (day : List Char) : List ShiftRow → Option String
  | [] => none
  | r :: rest =>
    if (splitOnChar ',' r.active_days.data).contains day then
      match parseShiftMinutes r.start_time, parseShiftMinutes r.end_time with
      | some start_minutes, some end_minutes =>
        let matched : Bool :=
          if end_minutes > start_minutes then
            decide (start_minutes ≤ cur ∧ cur < end_minutes)
          else
            decide (cur ≥ start_minutes ∨ cur < end_minutes)
        if matched then some r.shift_name
        else find_active_shift cur day rest
      | _, _ => find_active_shift cur day rest
    else find_active_shift cur day rest

/-- App.py lines 995-1064: `get_active_shift`, returning the shift name and
the optional explanatory note of the JSON response. -/
def get_active_shift (db : List ShiftRow) (now : Int) : String × Option String :=
  let current_minutes := timeOfDay now / usPerMin
  let current_day := (dayAbbr (weekday now)).data
  let shifts := db.filter (fun r => r.active)
  match shifts with
  | [] => ("A", some ("No shifts configured"))
  | _ =>
    match find_active_shift current_minutes current_day shifts with
    | some n => (n, none)
    | none => ("A", some ("No shift matched current time"))

/-- The per-row match test realised by the code's loop: day membership,
parseable times, and the window test where the overnight rule is applied
whenever `end_minutes ≤ start_minutes`. -/
def shiftMatchesNow (cur : Int) (day : List Char) (r : ShiftRow) : Bool :=
  if (splitOnChar ',' r.active_days.data).contains day then
    match parseShiftMinutes r.start_time, parseShiftMinutes r.end_time with
    | some s, some e =>
      if e > s then decide (s ≤ cur ∧ cur < e)
      else decide (cur ≥ s ∨ cur < e)
    | _, _ => false
  else false

/-- Modelled from the spec: the per-row match test as the specification
words it, with "overnight" given by the glossary (end strictly earlier than
start); used to compare the claimed active-shift rule against the code. -/
def specShiftMatches (cur : Int) (day : List Char) (r : ShiftRow) : Bool :=
  if (splitOnChar ',' r.active_days.data).contains day then
    match parseShiftMinutes r.start_time, parseShiftMinutes r.end_time with
    | some s, some e =>
      if e < s then decide (cur ≥ s ∨ cur < e)
      else decide (s ≤ cur ∧ cur < e)
    | _, _ => false
  else false

/-- Modelled from the spec: instant `t` lies inside some concrete occurrence
window of the shift — a window starts at `start_min` on an active weekday
and ends at `end_min` the same day, or the next calendar day when the shift
is overnight. -/
def inOccurrenceWindow (shift_days : List Nat) (start_min end_min : Nat)
    (t : Int) : Bool :=
  if end_min < start_min then
    (shift_days.contains (weekday t) &&
      decide ((start_min : Int) * usPerMin ≤ timeOfDay t)) ||
    (shift_days.contains (weekday (t - usPerDay)) &&
      decide (timeOfDay t < (end_min : Int) * usPerMin))
  else
    shift_days.contains (weekday t) &&
      decide ((start_min : Int) * usPerMin ≤ timeOfDay t ∧
        timeOfDay t < (end_min : Int) * usPerMin)

/-- A shift row whose stored strings parse: times in the hour-minute format
and every active-day token a valid weekday abbreviation. -/
def wfRow (r : ShiftRow) : Bool :=
  (parseHM r.start_time).isSome && (parseHM r.end_time).isSome &&
    (parseActiveDays r.active_days).isSome

/-- Every active row of the table is well-formed. -/
def wfDb (db : List ShiftRow) : Bool :=
  db.all (fun r => !r.active || wfRow r)

/-- The overnight Friday shift 17:00-05:00 used in concrete checks. -/
def fridayShift : ShiftRow := ⟨"A", "17:00", "05:00", "Fri", true⟩

def fridayDb : List ShiftRow := [fridayShift]

/-- A row whose start time string does not parse. -/
def badRow : ShiftRow := ⟨"A", "banana", "05:00", "Mon", true⟩

def badDb : List ShiftRow := [badRow]

/-- A shift whose end time equals its start time. -/
def equalEndsRow : ShiftRow := ⟨"N", "08:00", "08:00", "Mon", true⟩

def equalEndsDb : List ShiftRow := [equalEndsRow]

/-- The instant on day index `d` (0 = the epoch Monday) at `h:m` local
time. -/
def atTime (d h m : Nat) : Int := ((d * 1440 + h * 60 + m : Nat) : Int) * usPerMin

/-! ## Helper lemmas -/

theorem lt_replaceTime_addDays (ref k : Int) (m : Nat) (hk : 1 ≤ k) :
    ref < replaceTime (addDays ref k) m := by
  simp only [replaceTime, addDays, usPerDay, usPerMin]
  omega

theorem scanStep_lt (ref : Int) (days : List Nat) (m : Nat) (i : Nat) (v : Int)
    (h : scanStep ref days m i = some v) : ref < v := by
  unfold scanStep at h
  split at h
  · dsimp only at h
    split at h
    · next hlt => cases h; exact hlt
    · cases h
  · cases h

theorem nextDueScan_lt (ref : Int) (days : List Nat) (m : Nat) (v : Int)
    (h : nextDueScan ref days m = some v) : ref < v := by
  unfold nextDueScan at h
  generalize hl : [1, 2, 3, 4, 5, 6, 7] = l at h
  clear hl
  induction l with
  | nil => simp [List.findSome?] at h
  | cons a t ih =>
    cases hfa : scanStep ref days m a <;> simp [List.findSome?, hfa] at h
    · exact ih h
    · exact h ▸ scanStep_lt ref days m a _ hfa

theorem start_shift_daily_due_lt (ref : Int) (days : List Nat) (fd m : Nat) :
    ref < start_shift_daily_due ref days fd m := by
  unfold start_shift_daily_due
  cases hscan : nextDueScan ref days m with
  | some c => exact nextDueScan_lt ref days m c hscan
  | none =>
    dsimp only
    apply lt_replaceTime_addDays
    have h0 : 0 ≤ ((fd : Int) - (weekday ref : Int)) % 7 := by omega
    split <;> omega

theorem start_shift_weekly_due_lt (ref : Int) (fd m : Nat) :
    ref < start_shift_weekly_due ref fd m := by
  unfold start_shift_weekly_due
  simp only [replaceTime, addDays, usPerDay, usPerMin]
  split <;> omega

theorem end_shift_weekly_due_lt (ref : Int) (ld m : Nat) :
    ref < end_shift_weekly_due ref ld m := by
  unfold end_shift_weekly_due
  simp only [replaceTime, addDays, usPerDay, usPerMin]
  split <;> omega

theorem end_shift_daily_due_lt (ref : Int) (days : List Nat) (m : Nat) (v : Int)
    (h : end_shift_daily_due ref days m = .ok v) : ref < v := by
  unfold end_shift_daily_due at h
  cases hscan : nextDueScan ref days m <;> simp only [hscan] at h
  · cases days with
    | nil => cases h
    | cons d0 rest =>
      dsimp only at h
      cases h
      apply lt_replaceTime_addDays
      have h0 : 0 ≤ ((d0 : Int) - (weekday ref : Int)) % 7 := by omega
      split <;> omega
  · cases h
    exact nextDueScan_lt ref days m _ hscan

/-! ## C1 -/

/-- C1: for every task and every non-legacy interval type, the instant
returned by `calculate_next_due` is strictly greater than the reference
instant (the parsed `last_completed` when present and parseable, otherwise
the evaluation-time now), for every shift assignment including the
absent/virtual shift and including the END OF SHIFT DAILY fallback
branch. -/
theorem C1_next_due_strictly_after_reference
    (db : List ShiftRow) (now : Int) (lc : LastCompleted) (idays : Option Int)
    (itype : String) (ash : Option String) (v : Int)
    (hty : itype = "start_shift_daily" ∨ itype = "start_shift_weekly" ∨
      itype = "end_shift_daily" ∨ itype = "end_shift_weekly")
    (hok : calculate_next_due db now lc idays itype ash = .ok v) :
    referenceTime now lc < v := by
  unfold calculate_next_due at hok
  cases hres : resolveShift db ash with
  | error e => simp [hres] at hok
  | ok sh =>
    rw [hres] at hok
    rcases hty with h | h | h | h <;> subst h <;> simp at hok
    all_goals first
      | exact hok ▸ start_shift_daily_due_lt _ _ _ _
      | exact hok ▸ start_shift_weekly_due_lt _ _ _
      | exact end_shift_daily_due_lt _ _ _ _ hok
      | exact hok ▸ end_shift_weekly_due_lt _ _ _

/-- Witness for C1 at a concrete input: an unassigned task completed at the
epoch instant is next due on the following day at the virtual shift start. -/
theorem C1_witness :
    calculate_next_due [] 0 .absent none ("start_shift_daily") none =
      .ok 86400000000 ∧
    referenceTime 0 .absent < 86400000000 := by
  refine ⟨by rfl, ?_⟩
  exact C1_next_due_strictly_after_reference [] 0 .absent none
    ("start_shift_daily") none 86400000000 (Or.inl rfl) (by rfl)

/-! ## C3 -/

/-- Counterexample to C3: for the overnight shift 17:00-05:00 active on
Friday only, a completion at Fri 23:00 and a reference at Sat 04:00 are NOT
the same occurrence — the claim says they are.  The weekday-membership
check of `get_shift_date_for_time` runs first, Saturday is not an active
weekday, so the reference instant has no anchor date. -/
theorem C3_counterexample :
    is_same_shift_occurrence (atTime 4 23 0) (atTime 5 4 0) [4] 1020 300 = false := by
  decide

/-- C3 amended: for the overnight shift with start 17:00, end 05:00 and
active weekdays consisting of Friday only, `is_same_shift_occurrence` of a
completion at Fri 23:00 against a reference at Sat 04:00 is false (Saturday
is not an active weekday, so the reference has no anchor date), and against
a reference at Sat 06:00 is also false. -/
theorem C3_amended_overnight_regression :
    is_same_shift_occurrence (atTime 4 23 0) (atTime 5 4 0) [4] 1020 300 = false ∧
    is_same_shift_occurrence (atTime 4 23 0) (atTime 5 6 0) [4] 1020 300 = false := by
  exact ⟨by decide, by decide⟩

/-! ## C4 -/

/-- Counterexample to C4: a completion at Fri 12:00 lies outside every
occurrence window of the overnight Friday shift 17:00-05:00, yet
`is_same_shift_occurrence` against a reference at Fri 10:00 returns true
(both instants anchor to the Thursday date) — the claim says a completion
outside every window never matches. -/
theorem C4_counterexample :
    inOccurrenceWindow [4] 1020 300 (atTime 4 12 0) = false ∧
    is_same_shift_occurrence (atTime 4 12 0) (atTime 4 10 0) [4] 1020 300 = true := by
  exact ⟨by decide, by decide⟩

/-- C4 amended: `is_same_shift_occurrence` is true iff both anchor dates
(per `get_shift_date_for_time`) are defined and equal; whenever the
completion instant has no anchor date (inactive weekday, or a same-day
shift with the time-of-day outside the window), the result is false for
every reference instant. -/
theorem C4_same_occurrence_anchor_characterization :
    (∀ (ct rt : Int) (days : List Nat) (smin emin : Nat),
      is_same_shift_occurrence ct rt days smin emin = true ↔
        ∃ d, get_shift_date_for_time days smin emin ct = some d ∧
          get_shift_date_for_time days smin emin rt = some d) ∧
    (∀ (ct rt : Int) (days : List Nat) (smin emin : Nat),
      get_shift_date_for_time days smin emin ct = none →
        is_same_shift_occurrence ct rt days smin emin = false) := by
  constructor
  · intro ct rt days smin emin
    unfold is_same_shift_occurrence
    cases h1 : get_shift_date_for_time days smin emin ct <;>
      cases h2 : get_shift_date_for_time days smin emin rt <;> simp
    exact eq_comm
  · intro ct rt days smin emin h
    unfold is_same_shift_occurrence
    rw [h]

/-- Witness for C4 at a concrete input: Sat 06:00 has no anchor date for
the Friday-only overnight shift, so no reference matches it. -/
theorem C4_witness :
    get_shift_date_for_time [4] 1020 300 (atTime 5 6 0) = none ∧
    is_same_shift_occurrence (atTime 5 6 0) (atTime 4 23 0) [4] 1020 300 = false :=
  ⟨by decide, C4_same_occurrence_anchor_characterization.2
    (atTime 5 6 0) (atTime 4 23 0) [4] 1020 300 (by decide)⟩

/-! ## C5 -/

theorem is_same_shift_week_ok (ct rt : Int) (days : List Nat) (smin emin : Nat)
    (A B : Int) (h1 : get_shift_week_start days smin emin ct = .ok A)
    (h2 : get_shift_week_start days smin emin rt = .ok B) :
    is_same_shift_week ct rt days smin emin = .ok (A == B) := by
  unfold is_same_shift_week
  rw [h1, h2]
  rfl

theorem get_shift_week_start_formula (days : List Nat) (f smin emin : Nat)
    (t : Int) (hmin : days.min? = some f) :
    get_shift_week_start days smin emin t =
      .ok (dateOf t - ((weekday t : Int) - (f : Int)) % 7 -
        (if weekday t = f ∧ emin < smin ∧ timeOfDay t < (smin : Int) * usPerMin
         then 7 else 0)) := by
  unfold get_shift_week_start
  rw [hmin]
  dsimp only
  apply congrArg
  split <;> simp only [dateOf, usPerDay] <;> omega

/-- C5: `is_same_shift_week` computes the week start of an instant as the
instant's date minus `(weekday - min(shift_days)) mod 7` days, minus a
further 7 days exactly when the weekday equals the first active weekday,
the shift is overnight and the time-of-day is before the start time; the
result is true iff the two week starts are equal.  Concretely, for the
overnight Monday shift 16:30-03:30, Mon 02:00 resolves to the previous
week's start and Mon 17:00 to the current week's start. -/
theorem C5_same_shift_week_formula :
    (∀ (days : List Nat) (f smin emin : Nat) (t : Int), days.min? = some f →
      get_shift_week_start days smin emin t =
        .ok (dateOf t - ((weekday t : Int) - (f : Int)) % 7 -
          (if weekday t = f ∧ emin < smin ∧ timeOfDay t < (smin : Int) * usPerMin
           then 7 else 0))) ∧
    (∀ (ct rt : Int) (days : List Nat) (f smin emin : Nat), days.min? = some f →
      (is_same_shift_week ct rt days smin emin = .ok true ↔
        dateOf ct - ((weekday ct : Int) - (f : Int)) % 7 -
          (if weekday ct = f ∧ emin < smin ∧ timeOfDay ct < (smin : Int) * usPerMin
           then 7 else 0) =
        dateOf rt - ((weekday rt : Int) - (f : Int)) % 7 -
          (if weekday rt = f ∧ emin < smin ∧ timeOfDay rt < (smin : Int) * usPerMin
           then 7 else 0))) ∧
    (get_shift_week_start [0] 990 210 (atTime 7 2 0) = .ok (dateOf (atTime 0 0 0)) ∧
     get_shift_week_start [0] 990 210 (atTime 7 17 0) = .ok (dateOf (atTime 7 0 0))) := by
  refine ⟨get_shift_week_start_formula, ?_, by rfl, by rfl⟩
  intro ct rt days f smin emin hmin
  rw [is_same_shift_week_ok ct rt days smin emin _ _
    (get_shift_week_start_formula days f smin emin ct hmin)
    (get_shift_week_start_formula days f smin emin rt hmin)]
  simp

/-- Witness for C5 at a concrete input: Mon 02:00 of the second week
resolves to the first week's Monday for the overnight Monday shift
16:30-03:30. -/
theorem C5_witness :
    get_shift_week_start [0] 990 210 (atTime 7 2 0) = .ok 0 :=
  (C5_same_shift_week_formula.1 [0] 0 990 210 (atTime 7 2 0) rfl).trans (by rfl)

/-! ## C6 and C10 -/

theorem get_task_status_standard (db : List ShiftRow) (now nd : Int)
    (lc : LastCompleted) (itype ash : Option String) (r : String)
    (h : get_task_status db now nd lc itype ash = .ok r) (hr : r ≠ "completed") :
    r = standard_status now nd := by
  unfold get_task_status at h
  split at h
  · split at h
    · split at h
      · cases h
      · cases h
        exact absurd rfl hr
      · cases h
        rfl
    · cases h
      rfl
  · cases h
    rfl

/-- C6: whenever the completion-override step does not return the completed
status, `get_task_status` classifies by the standard comparison: overdue
iff now is strictly after the due instant, otherwise due iff the
floor-truncated whole-day count of the remaining time is less than one,
otherwise upcoming; concretely, with no completion record, a due instant
10 hours ahead is due, 1 minute behind is overdue, and 3 days ahead is
upcoming. -/
theorem C6_standard_status_classifier :
    (∀ (db : List ShiftRow) (now nd : Int) (lc : LastCompleted)
        (itype ash : Option String) (r : String),
      get_task_status db now nd lc itype ash = .ok r → r ≠ "completed" →
      r = if now > nd then ("overdue")
          else if (nd - now) / usPerDay < 1 then ("due") else ("upcoming")) ∧
    (∀ (db : List ShiftRow) (now : Int) (itype ash : Option String),
      get_task_status db now (now + 10 * usPerHour) .absent itype ash = .ok ("due") ∧
      get_task_status db now (now - usPerMin) .absent itype ash = .ok ("overdue") ∧
      get_task_status db now (now + 3 * usPerDay) .absent itype ash = .ok ("upcoming")) := by
  constructor
  · intro db now nd lc itype ash r h hr
    exact (get_task_status_standard db now nd lc itype ash r h hr).trans rfl
  · intro db now itype ash
    refine ⟨?_, ?_, ?_⟩
    · show Except.ok (standard_status now (now + 10 * usPerHour)) = _
      refine congrArg Except.ok ?_
      unfold standard_status
      rw [if_neg (by simp only [usPerHour]; omega),
        if_pos (by simp only [usPerHour, usPerDay]; omega)]
    · show Except.ok (standard_status now (now - usPerMin)) = _
      refine congrArg Except.ok ?_
      unfold standard_status
      rw [if_pos (by simp only [usPerMin]; omega)]
    · show Except.ok (standard_status now (now + 3 * usPerDay)) = _
      refine congrArg Except.ok ?_
      unfold standard_status
      rw [if_neg (by simp only [usPerDay]; omega),
        if_neg (by simp only [usPerDay]; omega)]

/-- Witness for C6 at a concrete input: a due instant three days ahead of
the epoch with no completion record is upcoming. -/
theorem C6_witness :
    get_task_status [] 0 (3 * usPerDay) .absent none none = .ok ("upcoming") ∧
    ("upcoming" : String) =
      (if (0 : Int) > 3 * usPerDay then ("overdue")
       else if (3 * usPerDay - 0) / usPerDay < 1 then ("due") else ("upcoming")) :=
  ⟨by rfl, C6_standard_status_classifier.1 [] 0 (3 * usPerDay) .absent none none
    ("upcoming") (by rfl) (by decide)⟩

/-- C10: when the completion-override step does not return the completed
status and now equals the due instant exactly, `get_task_status` returns
the due status — the overdue comparison is strict and the remaining
whole-day count is zero. -/
theorem C10_due_when_now_equals_next_due (db : List ShiftRow) (now : Int)
    (lc : LastCompleted) (itype ash : Option String) (r : String)
    (h : get_task_status db now now lc itype ash = .ok r) (hr : r ≠ "completed") :
    r = "due" := by
  rw [get_task_status_standard db now now lc itype ash r h hr]
  unfold standard_status
  rw [if_neg (by omega), if_pos (by simp only [usPerDay]; omega)]

/-- Witness for C10 at a concrete input. -/
theorem C10_witness :
    get_task_status [] 0 0 .absent none none = .ok ("due") ∧ ("due" : String) = "due" :=
  ⟨by rfl, C10_due_when_now_equals_next_due [] 0 .absent none none ("due")
    (by rfl) (by decide)⟩

/-! ## C2 -/

/-- C2: when the last completion is present and parseable and falls inside
the current shift occurrence (interval types containing the daily keyword)
or the current shift week (types containing the weekly keyword) of a
resolvable assigned shift, `get_task_status` returns the completed status
for every `next_due` — in particular even when now is strictly after
`next_due`; the completion check overrides the numeric comparison. -/
theorem C2_completion_override_returns_completed
    (db : List ShiftRow) (now next_due t : Int) (it s : String)
    (hit : it ≠ "") (hs : s ≠ "")
    (row : ShiftRow) (hrow : lookupShift db s = some row)
    (days : List Nat) (smin emin : Nat)
    (hd : parseActiveDays row.active_days = some days)
    (h1 : parseHM row.start_time = some smin)
    (h2 : parseHM row.end_time = some emin)
    (hocc : (strContains it ("daily") = true ∧
              is_same_shift_occurrence t now days smin emin = true) ∨
            (strContains it ("daily") = false ∧ strContains it ("weekly") = true ∧
              is_same_shift_week t now days smin emin = .ok true)) :
    get_task_status db now next_due (.parsed t) (some it) (some s) =
      .ok ("completed") := by
  have hsb : (s == "") = false := by
    simpa using hs
  have hrowFor : shiftRowFor db (some s) = some row := by
    simp [shiftRowFor, hsb, hrow]
  have hcomp : is_completed_in_current_shift_period db now t it (some s) = .ok true := by
    unfold is_completed_in_current_shift_period
    rw [hrowFor]
    rcases hocc with ⟨ha, hb⟩ | ⟨ha, hb, hc⟩
    · simp [hd, h1, h2, ha, hb]
    · simp [hd, h1, h2, ha, hb, hc]
  have hcond : ((LastCompleted.parsed t).truthy && truthyStr (some it) &&
      truthyStr (some s)) = true := by
    simp [LastCompleted.truthy, truthyStr, hit, hs]
  simp [get_task_status, hcond, hcomp]

/-- Witness for C2 at a concrete input: a task on the overnight Friday
shift completed at Fri 23:00, checked at Fri 23:30, with a due instant far
in the past, is reported completed. -/
theorem C2_witness :
    get_task_status fridayDb (atTime 4 23 30) 0 (.parsed (atTime 4 23 0))
      (some ("start_shift_daily")) (some ("A")) = .ok ("completed") :=
  C2_completion_override_returns_completed fridayDb (atTime 4 23 30) 0
    (atTime 4 23 0) ("start_shift_daily") ("A") (by decide) (by decide)
    fridayShift (by rfl) [4] 1020 300 (by rfl) (by rfl) (by rfl)
    (Or.inl ⟨by rfl, by decide⟩)

/-! ## C7 -/

/-- C7: on the end-shift-daily interval type `calculate_next_due` defers to
the END OF SHIFT DAILY branch with the resolved shift days and end time,
and when the 7-day scan finds no candidate that branch falls back to the
reference plus `(d0 - refWeekday) mod 7` days — or 7 days when that is
zero — at the end time, where `d0` is the first element of the stored
active-day list in its stored order (not the minimum weekday index that
the START OF SHIFT DAILY fallback uses). -/
theorem C7_end_shift_daily_fallback :
    (∀ (db : List ShiftRow) (now : Int) (lc : LastCompleted) (idays : Option Int)
        (ash : Option String) (sh : ResolvedShift),
      resolveShift db ash = .ok sh →
      calculate_next_due db now lc idays ("end_shift_daily") ash =
        end_shift_daily_due (referenceTime now lc) sh.shift_days sh.end_min) ∧
    (∀ (ref : Int) (m : Nat) (d0 : Nat) (rest : List Nat),
      nextDueScan ref (d0 :: rest) m = none →
      end_shift_daily_due ref (d0 :: rest) m =
        .ok (replaceTime (addDays ref
          (if ((d0 : Int) - (weekday ref : Int)) % 7 = 0 then 7
           else ((d0 : Int) - (weekday ref : Int)) % 7)) m)) := by
  constructor
  · intro db now lc idays ash sh hres
    unfold calculate_next_due
    rw [hres]
    rfl
  · intro ref m d0 rest hscan
    unfold end_shift_daily_due
    rw [hscan]

/-- Witness for C7 at concrete inputs: dispatch of the end-shift-daily type
through the resolved virtual shift, and the fallback on a day list whose
single entry 9 matches no weekday so the scan fails. -/
theorem C7_witness :
    calculate_next_due [] 0 .absent none ("end_shift_daily") none =
      end_shift_daily_due 0 [0, 1, 2, 3, 4, 5, 6] 0 ∧
    nextDueScan 0 [9] 0 = none ∧
    end_shift_daily_due 0 [9] 0 = .ok 172800000000 :=
  ⟨C7_end_shift_daily_fallback.1 [] 0 .absent none none
      ⟨[0, 1, 2, 3, 4, 5, 6], 0, 6, 0, 0⟩ (by rfl),
   by rfl,
   (C7_end_shift_daily_fallback.2 0 0 9 [] (by rfl)).trans (by rfl)⟩

/-! ## C8 -/

theorem splitOnChar_ne_nil (sep : Char) (s : List Char) : splitOnChar sep s ≠ [] := by
  induction s with
  | nil => simp [splitOnChar]
  | cons c cs ih =>
    unfold splitOnChar
    split
    · simp
    · cases h : splitOnChar sep cs with
      | nil => simp
      | cons a b => simp

theorem weekIdxList_length (ds : List (List Char)) (l : List Nat)
    (h : weekIdxList ds = some l) : l.length = ds.length := by
  induction ds generalizing l with
  | nil =>
    cases h
    rfl
  | cons d rest ih =>
    unfold weekIdxList at h
    cases h1 : WEEK_IDX d <;> rw [h1] at h
    · cases h
    · cases h2 : weekIdxList rest <;> rw [h2] at h
      · cases h
      · cases h
        simp [ih _ h2]

theorem parseActiveDays_ne_nil (s : String) (l : List Nat)
    (h : parseActiveDays s = some l) : l ≠ [] := by
  unfold parseActiveDays at h
  have hlen := weekIdxList_length _ _ h
  intro hnil
  subst hnil
  exact splitOnChar_ne_nil ',' s.data (List.length_eq_zero.mp hlen.symm)

theorem shiftRowFor_wf (db : List ShiftRow) (hwf : wfDb db = true)
    (ash : Option String) (r : ShiftRow) (h : shiftRowFor db ash = some r) :
    wfRow r = true := by
  unfold shiftRowFor at h
  cases ash with
  | none => cases h
  | some s =>
    cases hb : s == "" <;> simp [hb] at h
    have hmem := List.mem_of_find?_eq_some h
    have hp := List.find?_some h
    have hact : r.active = true := by
      simp only [Bool.and_eq_true] at hp
      exact hp.2
    have := List.all_eq_true.mp hwf r hmem
    simpa [hact] using this

theorem resolveShift_total (db : List ShiftRow) (hwf : wfDb db = true)
    (ash : Option String) :
    ∃ sh, resolveShift db ash = .ok sh ∧ sh.shift_days ≠ [] := by
  unfold resolveShift
  cases hrow : shiftRowFor db ash with
  | none => exact ⟨_, rfl, by simp⟩
  | some r =>
    have hwfr := shiftRowFor_wf db hwf ash r hrow
    unfold wfRow at hwfr
    simp only [Bool.and_eq_true, Option.isSome_iff_exists] at hwfr
    obtain ⟨⟨⟨s1, hs1⟩, ⟨e1, he1⟩⟩, ⟨days, hdays⟩⟩ := hwfr
    have hne := parseActiveDays_ne_nil _ _ hdays
    cases days with
    | nil => exact absurd rfl hne
    | cons a l =>
      dsimp only
      rw [hdays, hs1, he1]
      exact ⟨_, rfl, by simp⟩

theorem end_shift_daily_total (ref : Int) (days : List Nat) (m : Nat)
    (hne : days ≠ []) : ∃ v, end_shift_daily_due ref days m = .ok v := by
  unfold end_shift_daily_due
  cases hscan : nextDueScan ref days m with
  | none =>
    cases days with
    | nil => exact absurd rfl hne
    | cons d0 rest => exact ⟨_, rfl⟩
  | some c => exact ⟨_, rfl⟩

theorem calculate_next_due_total (db : List ShiftRow) (hwf : wfDb db = true)
    (now : Int) (lc : LastCompleted) (idays : Option Int) (itype : String)
    (ash : Option String) :
    ∃ v, calculate_next_due db now lc idays itype ash = .ok v := by
  obtain ⟨sh, hres, hne⟩ := resolveShift_total db hwf ash
  unfold calculate_next_due
  rw [hres]
  dsimp only
  split_ifs
  · exact ⟨_, rfl⟩
  · exact ⟨_, rfl⟩
  · exact end_shift_daily_total _ _ _ hne
  · exact ⟨_, rfl⟩
  · cases lc <;> exact ⟨_, rfl⟩

theorem get_shift_week_start_total (days : List Nat) (smin emin : Nat) (t : Int)
    (hne : days ≠ []) : ∃ w, get_shift_week_start days smin emin t = .ok w := by
  unfold get_shift_week_start
  cases days with
  | nil => exact absurd rfl hne
  | cons a l => exact ⟨_, rfl⟩

theorem is_same_shift_week_total (ct rt : Int) (days : List Nat)
    (smin emin : Nat) (hne : days ≠ []) :
    ∃ b, is_same_shift_week ct rt days smin emin = .ok b := by
  obtain ⟨w1, h1⟩ := get_shift_week_start_total days smin emin ct hne
  obtain ⟨w2, h2⟩ := get_shift_week_start_total days smin emin rt hne
  exact ⟨_, is_same_shift_week_ok ct rt days smin emin w1 w2 h1 h2⟩

theorem is_completed_total (db : List ShiftRow) (hwf : wfDb db = true)
    (now ct : Int) (itype : String) (ash : Option String) :
    ∃ b, is_completed_in_current_shift_period db now ct itype ash = .ok b := by
  unfold is_completed_in_current_shift_period
  cases hrow : shiftRowFor db ash with
  | none => exact ⟨_, rfl⟩
  | some r =>
    have hwfr := shiftRowFor_wf db hwf ash r hrow
    unfold wfRow at hwfr
    simp only [Bool.and_eq_true, Option.isSome_iff_exists] at hwfr
    obtain ⟨⟨⟨s1, hs1⟩, ⟨e1, he1⟩⟩, ⟨days, hdays⟩⟩ := hwfr
    have hne := parseActiveDays_ne_nil _ _ hdays
    dsimp only
    rw [hdays, hs1, he1]
    split_ifs
    · exact ⟨_, rfl⟩
    · exact is_same_shift_week_total ct now days s1 e1 hne
    · exact ⟨_, rfl⟩

theorem get_task_status_total (db : List ShiftRow) (hwf : wfDb db = true)
    (now nd : Int) (lc : LastCompleted) (itype ash : Option String) :
    ∃ r, get_task_status db now nd lc itype ash = .ok r := by
  unfold get_task_status
  split
  · split
    · next t it heq =>
      obtain ⟨b, hb⟩ := is_completed_total db hwf now t it ash
      rw [hb]
      cases b
      · exact ⟨_, rfl⟩
      · exact ⟨_, rfl⟩
    · exact ⟨_, rfl⟩
  · exact ⟨_, rfl⟩

/-- Counterexample to C8: a shift row whose stored start time does not
parse makes `calculate_next_due` raise (modelled as an error result), so
the scheduler core is not total for every shift configuration. -/
theorem C8_counterexample :
    calculate_next_due badDb 0 .absent none ("start_shift_daily") (some ("A")) =
      .error () := by rfl

/-- C8 amended: over a well-formed shift table (every active row's start
and end times parse in the hour-minute format and every active-day token is
a valid weekday abbreviation), the scheduler core is total:
`calculate_next_due` and `get_task_status` always return a value,
`is_same_shift_week` returns a value on every nonempty day list, an
assigned shift with no matching active row resolves to the all-weekday
virtual shift with a zero-length day window, and a present-but-unparseable
completion timestamp is replaced by the evaluation-time now.
(`is_same_shift_occurrence` is total by construction.) -/
theorem C8_total_on_wellformed_config (db : List ShiftRow) (hwf : wfDb db = true) :
    (∀ (now : Int) (lc : LastCompleted) (idays : Option Int) (itype : String)
        (ash : Option String),
      ∃ v, calculate_next_due db now lc idays itype ash = .ok v) ∧
    (∀ (now nd : Int) (lc : LastCompleted) (itype ash : Option String),
      ∃ r, get_task_status db now nd lc itype ash = .ok r) ∧
    (∀ (ct rt : Int) (days : List Nat) (smin emin : Nat), days ≠ [] →
      ∃ b, is_same_shift_week ct rt days smin emin = .ok b) ∧
    (∀ s, lookupShift db s = none →
      resolveShift db (some s) = .ok ⟨[0, 1, 2, 3, 4, 5, 6], 0, 6, 0, 0⟩) ∧
    (∀ now : Int, referenceTime now .unparseable = now) := by
  refine ⟨calculate_next_due_total db hwf, get_task_status_total db hwf,
    fun ct rt days smin emin hne => is_same_shift_week_total ct rt days smin emin hne,
    ?_, fun now => rfl⟩
  intro s hnone
  unfold resolveShift shiftRowFor
  cases hb : s == "" <;> simp [hb, hnone]

/-- Witness for C8 at a concrete well-formed table. -/
theorem C8_witness :
    wfDb fridayDb = true ∧
    (∃ v, calculate_next_due fridayDb 0 .absent none ("end_shift_daily")
      (some ("A")) = .ok v) ∧
    (∃ r, get_task_status fridayDb 0 0 .unparseable (some ("start_shift_daily"))
      (some ("A")) = .ok r) :=
  ⟨by decide,
   (C8_total_on_wellformed_config fridayDb (by decide)).1 0 .absent none
     ("end_shift_daily") (some ("A")),
   (C8_total_on_wellformed_config fridayDb (by decide)).2.1 0 0 .unparseable
     (some ("start_shift_daily")) (some ("A"))⟩

/-! ## C9 -/

theorem find_active_shift_eq (cur : Int) (day : List Char) (l : List ShiftRow) :
    find_active_shift cur day l =
      (l.find? (shiftMatchesNow cur day)).map (fun r => r.shift_name) := by
  induction l with
  | nil => rfl
  | cons r rest ih =>
    rw [find_active_shift]
    cases hc : (splitOnChar ',' r.active_days.data).contains day with
    | false =>
      rw [if_neg (by decide)]
      have hsm : shiftMatchesNow cur day r = false := by
        unfold shiftMatchesNow
        rw [hc]
        exact if_neg (by decide)
      rw [ih]
      simp [List.find?, hsm]
    | true =>
      rw [if_pos rfl]
      cases hp1 : parseShiftMinutes r.start_time with
      | none =>
        have hsm : shiftMatchesNow cur day r = false := by
          unfold shiftMatchesNow
          rw [hc, if_pos rfl, hp1]
        rw [ih]
        simp [List.find?, hsm]
      | some s =>
        cases hp2 : parseShiftMinutes r.end_time with
        | none =>
          have hsm : shiftMatchesNow cur day r = false := by
            unfold shiftMatchesNow
            rw [hc, if_pos rfl, hp1, hp2]
          rw [ih]
          simp [List.find?, hsm]
        | some e =>
          have hsm : shiftMatchesNow cur day r =
              (if e > s then decide (s ≤ cur ∧ cur < e)
               else decide (cur ≥ s ∨ cur < e)) := by
            unfold shiftMatchesNow
            rw [hc, if_pos rfl, hp1, hp2]
          dsimp only
          cases hb : (if e > s then decide (s ≤ cur ∧ cur < e)
              else decide (cur ≥ s ∨ cur < e)) with
          | true =>
            rw [if_pos rfl]
            simp only [List.find?, hsm, hb]
            rfl
          | false =>
            rw [if_neg (by decide)]
            rw [ih]
            simp only [List.find?, hsm, hb]

/-- Counterexample to C9: a shift whose end time equals its start time is
not overnight under the specification's definition (end strictly earlier
than start), so per the claim it should match only when
`start ≤ now < end`, i.e. never; the code instead routes `end ≤ start`
through the overnight rule and matches it at every minute of an active
day.  At Monday noon the code returns that shift while the
specification-worded predicate matches nothing. -/
theorem C9_counterexample :
    get_active_shift equalEndsDb (atTime 0 12 0) = ("N", none) ∧
    (equalEndsDb.filter (fun r => r.active)).find?
      (specShiftMatches (timeOfDay (atTime 0 12 0) / usPerMin)
        ((dayAbbr (weekday (atTime 0 12 0))).data)) = none := by
  exact ⟨by rfl, by rfl⟩

/-- C9 amended: `get_active_shift` iterates the active shifts in display
order, skips a shift when the current weekday abbreviation is not in its
active-day list or when its start or end time string fails to parse, and
returns the first shift satisfying `start ≤ nowMinutes < end` when
`end > start`, or `nowMinutes ≥ start OR nowMinutes < end` otherwise (so a
shift with equal start and end is handled by the overnight rule and
matches at every minute of an active day); with no shift configured, or no
shift matching, it returns the default shift name with an explanatory
note instead of failing. -/
theorem C9_active_shift_characterization (db : List ShiftRow) (now : Int) :
    (db.filter (fun r => r.active) = [] →
      get_active_shift db now = ("A", some ("No shifts configured"))) ∧
    (∀ r, (db.filter (fun r => r.active)).find?
        (shiftMatchesNow (timeOfDay now / usPerMin)
          ((dayAbbr (weekday now)).data)) = some r →
      get_active_shift db now = (r.shift_name, none)) ∧
    (db.filter (fun r => r.active) ≠ [] →
      (db.filter (fun r => r.active)).find?
        (shiftMatchesNow (timeOfDay now / usPerMin)
          ((dayAbbr (weekday now)).data)) = none →
      get_active_shift db now = ("A", some ("No shift matched current time"))) := by
  refine ⟨?_, ?_, ?_⟩
  · intro h
    unfold get_active_shift
    rw [h]
  · intro r hfind
    unfold get_active_shift
    cases hfilter : db.filter (fun r => r.active) with
    | nil =>
      rw [hfilter] at hfind
      cases hfind
    | cons a t =>
      rw [hfilter] at hfind
      dsimp only
      rw [find_active_shift_eq, hfind]
      rfl
  · intro hne hfind
    unfold get_active_shift
    cases hfilter : db.filter (fun r => r.active) with
    | nil => exact absurd hfilter hne
    | cons a t =>
      rw [hfilter] at hfind
      dsimp only
      rw [find_active_shift_eq, hfind]
      rfl

/-- Witness for C9 at a concrete input: the overnight Friday shift matches
Friday 18:00. -/
theorem C9_witness :
    get_active_shift fridayDb (atTime 4 18 0) = (("A"), none) :=
  (C9_active_shift_characterization fridayDb (atTime 4 18 0)).2.1 fridayShift (by rfl)
